import Mathlib

/-!
Shallow embedding of `disgoreact.go` (package `disgoreact`), a reaction-based
voting watcher for Discord messages.

The remote service (the `discordgo` session) is modelled by a `Session`
record of response functions, one per remote call the package makes; a
watcher tick event carries the `Session` snapshot describing how the remote
service answers on that tick.  Side effects — remote calls issued and
callbacks invoked — are recorded in explicit action logs, so that claims
about "exactly one call" or "no further calls" become statements about
those logs.
-/

namespace DisgoReact

/-- Discord user, reduced to the only field the code reads (`u.ID`). -/
structure User where
  id : String
deriving DecidableEq

/-- Zero-valued `discordgo.User{}`: the code uses it both as the value
behind the `*discordgo.User` returned when no user qualifies and as the
sentinel compared by inequality in the watcher. -/
def emptyUser : User := ⟨""⟩

/-- Message, reduced to the fields the code reads (`ChannelID`, `ID`). -/
structure Message where
  channelID : String
  id : String
deriving DecidableEq

/-- Remote-service snapshot: how the `discordgo` session answers each call
the package makes.  `selfID` is `ses.State.User.ID`.  `messageReactionAdd`
maps an emoji to the result of `MessageReactionAdd`; `messageReactions`
maps (emoji, limit) to the result of `MessageReactions`;
`messageReactionRemove` maps (emoji, userID) to the result of
`MessageReactionRemove`; `messageReactionsRemoveAll` is the result of
`MessageReactionsRemoveAll` — the watcher discards it, so no definition
below ever reads this field. -/
structure Session where
  selfID : String
  messageReactionAdd : String → Option String
  messageReactions : String → Int → Except String (List User)
  messageReactionRemove : String → String → Option String
  messageReactionsRemoveAll : Option String

/-- The `Option` record of the source (named `Opt` here because `Option` is
taken by Lean).  The two callback fields `OnSucess` and `OnError` are not
data; their invocations are recorded as `Action`s by the watcher model. -/
structure Opt where
  emoji : String
  reactionLimit : Int
  expiration : Int
deriving DecidableEq

/-- `WatchContext`: pointers are modelled as `Option` (with `none` for a
nil pointer), `TickRate` (a `time.Duration`, an `int64` nanosecond count)
as `Int`, and the opaque `Data interface\x7b\x7d` payload as `Option String`. -/
structure WatchContext where
  message : Option Message
  session : Option Session
  tickRate : Int
  data : Option String

/-- Zero-valued `WatchContext{}`, the value behind the pointer returned on
the validation-failure path of `NewWatcher`. -/
def zeroWatchContext : WatchContext := ⟨none, none, 0, none⟩

/-- `NewWatcher`: the first component models the returned `*WatchContext`
(`some` = non-nil pointer), the second the returned `error`.  The source
checks only `tickRate == 0`. -/
def NewWatcher (message : Option Message) (session : Option Session)
    (tickRate : Int) (data : Option String) :
    Option WatchContext × Option String :=
  if tickRate = 0 then
    (some zeroWatchContext, some "no tickrate specified (cannot be 0)")
  else
    (some ⟨message, session, tickRate, data⟩, none)

/-- Result of one `poll` call: the returned `*discordgo.User` value and the
returned `error`, plus logs of the user IDs inspected by the scan loop and
of the `MessageReactionRemove` calls issued, as (emoji, userID) pairs. -/
structure PollResult where
  user : User
  error : Option String
  inspected : List String
  removeCalls : List (String × String)
deriving DecidableEq

/-- The scan loop of `poll`: iterate through the users, skip the bot
(`u.ID == ses.State.User.ID`), remove the reaction of the first other user
and return that user; a failing removal returns the zero user and the
error; an exhausted list returns the zero user and no error. -/
def pollLoop (ses : Session) (emoji : String) : List User → PollResult
  | [] => ⟨emptyUser, none, [], []⟩
  | u :: rest =>
    if u.id = ses.selfID then
      let r := pollLoop ses emoji rest
      { r with inspected := u.id :: r.inspected }
    else
      match ses.messageReactionRemove emoji u.id with
      | some e => ⟨emptyUser, some e, [u.id], [(emoji, u.id)]⟩
      | none => ⟨u, none, [u.id], [(emoji, u.id)]⟩

/-- `poll`: fetch up to `opt.ReactionLimit` reactors for `opt.Emoji`; on
failure return the zero user and the error; otherwise, guarded by the
redundant `len(users) >= 1` check of the source, run the scan loop. -/
def poll (ses : Session) (opt : Opt) : PollResult :=
  match ses.messageReactions opt.emoji opt.reactionLimit with
  | .error e => ⟨emptyUser, some e, [], []⟩
  | .ok users =>
    if users.length ≥ 1 then pollLoop ses opt.emoji users
    else ⟨emptyUser, none, [], []⟩

/-- Observable steps a watcher takes: a `MessageReactions` fetch
(`pollCall`, issued at the start of every non-expired tick body), a
`MessageReactionRemove` call, the `MessageReactionsRemoveAll` cleanup
call, and the two callback invocations. -/
inductive Action where
  | pollCall
  | removeReaction (emoji : String) (userID : String)
  | removeAllCall
  | onSuccess (user : User)
  | onError (err : String)
deriving DecidableEq

/-- State of the `watcher` goroutine loop: `running expired` is the loop
with its `expired` boolean flag, `terminated` means the goroutine has
returned. -/
inductive WatcherState where
  | running (expired : Bool)
  | terminated
deriving DecidableEq

/-- One arm of the `select`: the expiration timer fires, or a tick arrives;
the tick carries the remote-service snapshot answering the calls made in
that tick body. -/
inductive Event where
  | expire
  | tick (ses : Session)

/-- One iteration of the `watcher` loop on one event.  An expiration event
only sets the flag; a tick in the expired state issues the cleanup call
(whose result field is never read — the source discards it) and returns; a
tick in the non-expired state runs `poll`, fires `OnError` and returns on
error, fires `OnSucess` when the returned user differs from the zero user
— and in that case the source has no `return`, so the loop continues. -/
def watcherStep (opt : Opt) : WatcherState → Event → WatcherState × List Action
  | .terminated, _ => (.terminated, [])
  | .running _, .expire => (.running true, [])
  | .running true, .tick _ => (.terminated, [.removeAllCall])
  | .running false, .tick ses =>
    let r := poll ses opt
    let calls := Action.pollCall :: r.removeCalls.map fun p => Action.removeReaction p.1 p.2
    match r.error with
    | some e => (.terminated, calls ++ [.onError e])
    | none =>
      if emptyUser ≠ r.user then (.running false, calls ++ [.onSuccess r.user])
      else (.running false, calls)

/-- Run a watcher over a sequence of timer events, accumulating the log of
actions.  A terminated watcher processes no further events. -/
def watcherRun (opt : Opt) : WatcherState → List Event → WatcherState × List Action
  | s, [] => (s, [])
  | s, e :: rest =>
    let p := watcherStep opt s e
    let q := watcherRun opt p.1 rest
    (q.1, p.2 ++ q.2)

/-- Errors returned by `Add`: the two `fmt.Errorf` messages of the source —
the validation error for an empty option list, and the remote error
(which interpolates the message ID and discards the underlying error)
when `MessageReactionAdd` fails. -/
inductive AddErr where
  | validationNoOptions
  | remoteCantAdd (msgID : String)
deriving DecidableEq

/-- Observable steps `Add` takes, per option and in order: the
`MessageReactionAdd` call for the emoji of the option, and the
`go ctx.watcher(v)` launch. -/
inductive AddAction where
  | attach (emoji : String)
  | launch (emoji : String)
deriving DecidableEq

/-- The loop body of `Add`: for each option in caller order, issue
`MessageReactionAdd`; on failure return the remote error at once (the
failing attach call was still issued, and is logged); on success launch
the watcher for that option and continue. -/
def addLoop (ses : Session) (msgID : String) :
    List Opt → Option AddErr × List AddAction
  | [] => (none, [])
  | o :: rest =>
    match ses.messageReactionAdd o.emoji with
    | some _ => (some (.remoteCantAdd msgID), [.attach o.emoji])
    | none =>
      let r := addLoop ses msgID rest
      (r.1, .attach o.emoji :: .launch o.emoji :: r.2)

/-- `WatchContext.Add`: reject an empty option list with the validation
error, otherwise run the attach-and-launch loop. -/
def Add (ses : Session) (msgID : String) (options : List Opt) :
    Option AddErr × List AddAction :=
  if options.length = 0 then (some .validationNoOptions, [])
  else addLoop ses msgID options

/-- A tick whose poll succeeds but yields no qualifying user: the watcher
observes the zero user and no error, so it neither fires a callback nor
changes state. -/
def QuietTick (opt : Opt) (e : Event) : Prop :=
  ∃ ses, e = .tick ses ∧ (poll ses opt).error = none ∧
    (poll ses opt).user = emptyUser

/-- Number of occurrences of an action in a log. -/
def countA (a : Action) : List Action → Nat
  | [] => 0
  | b :: l => (if b = a then 1 else 0) + countA a l

lemma countA_append (a : Action) (l1 l2 : List Action) :
    countA a (l1 ++ l2) = countA a l1 + countA a l2 := by
  induction l1 with
  | nil => simp [countA]
  | cons b l ih => simp [countA, ih, Nat.add_assoc]

lemma countA_cons_self (a : Action) (l : List Action) :
    countA a (a :: l) = countA a l + 1 := by
  simp [countA, Nat.add_comm]

lemma countA_cons_ne (a b : Action) (l : List Action) (h : b ≠ a) :
    countA a (b :: l) = countA a l := by
  simp [countA, h]

lemma countA_remove_map (a : Action)
    (h : ∀ em uid, Action.removeReaction em uid ≠ a)
    (l : List (String × String)) :
    countA a (l.map fun p => Action.removeReaction p.1 p.2) = 0 := by
  induction l with
  | nil => rfl
  | cons p l ih => simp [countA, ih, h p.1 p.2]

lemma pollLoop_all_self (ses : Session) (emoji : String) (users : List User)
    (h : ∀ v ∈ users, v.id = ses.selfID) :
    pollLoop ses emoji users = ⟨emptyUser, none, users.map User.id, []⟩ := by
  induction users with
  | nil => rfl
  | cons u rest ih =>
    have hu : u.id = ses.selfID := h u (by simp)
    have hr := ih fun v hv => h v (by simp [hv])
    simp [pollLoop, hu, hr]

lemma pollLoop_first_ok (ses : Session) (emoji : String) (pre : List User)
    (u : User) (rest : List User)
    (hpre : ∀ v ∈ pre, v.id = ses.selfID) (hu : u.id ≠ ses.selfID)
    (hrem : ses.messageReactionRemove emoji u.id = none) :
    pollLoop ses emoji (pre ++ u :: rest)
      = ⟨u, none, pre.map User.id ++ [u.id], [(emoji, u.id)]⟩ := by
  induction pre with
  | nil => simp [pollLoop, hu, hrem]
  | cons v vs ih =>
    have hv : v.id = ses.selfID := hpre v (by simp)
    have hr := ih fun w hw => hpre w (by simp [hw])
    simp [pollLoop, hv, hr]

lemma pollLoop_first_err (ses : Session) (emoji : String) (pre : List User)
    (u : User) (rest : List User) (e : String)
    (hpre : ∀ v ∈ pre, v.id = ses.selfID) (hu : u.id ≠ ses.selfID)
    (hrem : ses.messageReactionRemove emoji u.id = some e) :
    pollLoop ses emoji (pre ++ u :: rest)
      = ⟨emptyUser, some e, pre.map User.id ++ [u.id], [(emoji, u.id)]⟩ := by
  induction pre with
  | nil => simp [pollLoop, hu, hrem]
  | cons v vs ih =>
    have hv : v.id = ses.selfID := hpre v (by simp)
    have hr := ih fun w hw => hpre w (by simp [hw])
    simp [pollLoop, hv, hr]

lemma poll_ok (ses : Session) (opt : Opt) (users : List User)
    (h : ses.messageReactions opt.emoji opt.reactionLimit = .ok users) :
    poll ses opt = pollLoop ses opt.emoji users := by
  cases users with
  | nil => simp [poll, h, pollLoop]
  | cons u rest => simp [poll, h]

lemma watcherStep_quiet (opt : Opt) (ses : Session)
    (h1 : (poll ses opt).error = none) (h2 : (poll ses opt).user = emptyUser) :
    watcherStep opt (.running false) (.tick ses)
      = (.running false,
         .pollCall ::
           (poll ses opt).removeCalls.map fun p => Action.removeReaction p.1 p.2) := by
  simp [watcherStep, h1, h2]

lemma watcherStep_success (opt : Opt) (ses : Session) (u : User)
    (h1 : (poll ses opt).error = none) (h2 : (poll ses opt).user = u)
    (h3 : emptyUser ≠ u) :
    watcherStep opt (.running false) (.tick ses)
      = (.running false,
         (.pollCall ::
           (poll ses opt).removeCalls.map fun p => Action.removeReaction p.1 p.2)
           ++ [.onSuccess u]) := by
  simp [watcherStep, h1, h2, h3]

lemma watcherStep_error (opt : Opt) (ses : Session) (e : String)
    (h : (poll ses opt).error = some e) :
    watcherStep opt (.running false) (.tick ses)
      = (.terminated,
         (.pollCall ::
           (poll ses opt).removeCalls.map fun p => Action.removeReaction p.1 p.2)
           ++ [.onError e]) := by
  simp [watcherStep, h]

lemma watcherRun_cons (opt : Opt) (s : WatcherState) (e : Event)
    (rest : List Event) :
    watcherRun opt s (e :: rest)
      = ((watcherRun opt (watcherStep opt s e).1 rest).1,
         (watcherStep opt s e).2 ++ (watcherRun opt (watcherStep opt s e).1 rest).2) :=
  rfl

lemma watcherRun_terminated (opt : Opt) (l : List Event) :
    watcherRun opt .terminated l = (.terminated, []) := by
  induction l with
  | nil => rfl
  | cons e rest ih => simp [watcherRun, watcherStep, ih]

lemma quiet_run (opt : Opt) (pre : List Event)
    (hpre : ∀ e ∈ pre, QuietTick opt e) (tail : List Event) :
    ∃ acts1 : List Action,
      watcherRun opt (.running false) (pre ++ tail)
        = ((watcherRun opt (.running false) tail).1,
           acts1 ++ (watcherRun opt (.running false) tail).2)
      ∧ countA .pollCall acts1 = pre.length
      ∧ countA .removeAllCall acts1 = 0
      ∧ (∀ e, countA (.onError e) acts1 = 0)
      ∧ (∀ u, countA (.onSuccess u) acts1 = 0) := by
  induction pre with
  | nil => exact ⟨[], rfl, rfl, rfl, fun _ => rfl, fun _ => rfl⟩
  | cons ev pre ih =>
    obtain ⟨ses, he, herr, huser⟩ := hpre ev (List.mem_cons_self ev pre)
    subst he
    obtain ⟨acts1, heq, h1, h2, h3, h4⟩ := ih fun x hx => hpre x (by simp [hx])
    have hstep := watcherStep_quiet opt ses herr huser
    have hz : ∀ a : Action, (∀ em uid, Action.removeReaction em uid ≠ a) →
        countA a ((poll ses opt).removeCalls.map
          fun p => Action.removeReaction p.1 p.2) = 0 :=
      fun a ha => countA_remove_map a ha _
    refine ⟨(.pollCall ::
        (poll ses opt).removeCalls.map fun p => Action.removeReaction p.1 p.2)
        ++ acts1, ?_, ?_, ?_, ?_, ?_⟩
    · rw [List.cons_append, watcherRun_cons, hstep]
      simp only [heq, List.append_assoc]
    · rw [countA_append, h1, countA_cons_self,
        hz Action.pollCall fun em uid h => by cases h]
      simp [Nat.add_comm]
    · rw [countA_append, h2, countA_cons_ne _ _ _ (by intro h; cases h),
        hz Action.removeAllCall fun em uid h => by cases h]
    · intro er
      rw [countA_append, h3, countA_cons_ne _ _ _ (by intro h; cases h),
        hz (Action.onError er) fun em uid h => by cases h]
    · intro u
      rw [countA_append, h4, countA_cons_ne _ _ _ (by intro h; cases h),
        hz (Action.onSuccess u) fun em uid h => by cases h]

lemma step_tick_pollCall_one (opt : Opt) (ses : Session) :
    countA .pollCall (watcherStep opt (.running false) (.tick ses)).2 = 1 := by
  have hrm := countA_remove_map Action.pollCall
    (fun em uid h => by cases h) (poll ses opt).removeCalls
  rcases herr : (poll ses opt).error with _ | e
  · rcases huser : (poll ses opt).user with ⟨uid⟩
    by_cases hu : emptyUser = (⟨uid⟩ : User)
    · rw [watcherStep_quiet opt ses herr (huser.trans hu.symm)]
      simp [countA_cons_self, hrm]
    · rw [watcherStep_success opt ses ⟨uid⟩ herr huser hu]
      simp [countA_append, countA, hrm]
  · rw [watcherStep_error opt ses e herr]
    simp [countA_append, countA, hrm]

/-- Concrete option used by witnesses: emoji "x", reaction limit 5,
expiration 100. -/
def optX : Opt := ⟨"x", 5, 100⟩

/-- Session whose reactor list holds only the bot account "bot". -/
def sesBotOnly : Session :=
  ⟨"bot", fun _ => none, fun _ _ => Except.ok [⟨"bot"⟩], fun _ _ => none, none⟩

/-- Session whose reactor list is [bot, ua]; every call succeeds. -/
def sesOne : Session :=
  ⟨"bot", fun _ => none, fun _ _ => Except.ok [⟨"bot"⟩, ⟨"ua"⟩],
    fun _ _ => none, none⟩

/-- Session whose reactor list is [bot, ua, ub]; every call succeeds. -/
def sesThree : Session :=
  ⟨"bot", fun _ => none, fun _ _ => Except.ok [⟨"bot"⟩, ⟨"ua"⟩, ⟨"ub"⟩],
    fun _ _ => none, none⟩

/-- Session whose reactor list is empty. -/
def sesEmpty : Session :=
  ⟨"bot", fun _ => none, fun _ _ => Except.ok [], fun _ _ => none, none⟩

/-- Session for which fetching the reactor list fails. -/
def sesListFail : Session :=
  ⟨"bot", fun _ => none, fun _ _ => Except.error "listfail",
    fun _ _ => none, none⟩

/-- Session for which removing the reaction of user "ua" fails. -/
def sesRemoveFail : Session :=
  ⟨"bot", fun _ => none, fun _ _ => Except.ok [⟨"bot"⟩, ⟨"ua"⟩],
    fun _ uid => if uid = "ua" then some "rmfail" else none, none⟩

/-- Session for which attaching emoji "y" fails and every other call
succeeds. -/
def sesAttachFail : Session :=
  ⟨"bot", fun em => if em = "y" then some "boom" else none,
    fun _ _ => Except.ok [], fun _ _ => none, none⟩

/-- C2, counterexample: a negative tick interval is accepted — `NewWatcher`
with tick rate -1 returns a fully-populated context and no error, because
the source checks only `tickRate == 0`.  This refutes "for every
tick-interval input that is zero or negative, construction fails with a
ValidationError". -/
theorem newWatcher_negative_tick_counterexample :
    NewWatcher none none (-1) none = (some ⟨none, none, -1, none⟩, none) := rfl

/-- C2, amended: `NewWatcher` fails with the validation error exactly when
the tick interval is zero; any nonzero (including negative) tick interval
is accepted.  In both cases the returned context pointer is non-nil. -/
theorem newWatcher_fails_iff_zero_tick (m : Option Message)
    (s : Option Session) (t : Int) (d : Option String) :
    ((NewWatcher m s t d).2.isSome ↔ t = 0)
    ∧ (NewWatcher m s t d).1.isSome := by
  by_cases h : t = 0 <;> simp [NewWatcher, h]

/-- Witness for C2 at tick rate 0. -/
theorem newWatcher_fails_iff_zero_tick_witness :
    (((NewWatcher none none 0 none).2.isSome ↔ (0 : Int) = 0)
      ∧ (NewWatcher none none 0 none).1.isSome) :=
  newWatcher_fails_iff_zero_tick none none 0 none

/-- C3: `Add` with an empty option list fails with the validation error,
attaches no reaction and launches no watcher (its action log is empty). -/
theorem add_empty_options_validation (ses : Session) (msgID : String) :
    Add ses msgID [] = (some .validationNoOptions, []) := rfl

/-- C9: when `NewWatcher` rejects its input (tick rate zero), it returns a
non-nil pointer (`some`) to the zero-valued `WatchContext` alongside the
error, so a caller ignoring the error can dereference the result. -/
theorem newWatcher_zero_returns_nonnil_zero_context (m : Option Message)
    (s : Option Session) (d : Option String) :
    NewWatcher m s 0 d
      = (some zeroWatchContext, some "no tickrate specified (cannot be 0)") := rfl

/-- C4: when the reactor list is bots-only followed by a non-bot user `u`
and then anything, `poll` returns `u`, issues exactly one
`MessageReactionRemove` call — for `u` on the emoji of the option — and
inspects only the skipped bots and `u`, never the later reactors. -/
theorem poll_returns_first_nonbot (ses : Session) (opt : Opt)
    (pre : List User) (u : User) (rest : List User)
    (hlist : ses.messageReactions opt.emoji opt.reactionLimit
      = .ok (pre ++ u :: rest))
    (hpre : ∀ v ∈ pre, v.id = ses.selfID) (hu : u.id ≠ ses.selfID)
    (hrem : ses.messageReactionRemove opt.emoji u.id = none) :
    poll ses opt = ⟨u, none, pre.map User.id ++ [u.id], [(opt.emoji, u.id)]⟩ := by
  rw [poll_ok ses opt _ hlist,
    pollLoop_first_ok ses opt.emoji pre u rest hpre hu hrem]

/-- Witness for C4 on the reactor list [bot, ua, ub]: poll returns ua,
removes only the reaction of ua, and never inspects ub. -/
theorem poll_returns_first_nonbot_witness :
    (sesThree.messageReactions optX.emoji optX.reactionLimit
        = Except.ok ([⟨"bot"⟩] ++ ⟨"ua"⟩ :: [⟨"ub"⟩])
      ∧ (⟨"ua"⟩ : User).id ≠ sesThree.selfID
      ∧ sesThree.messageReactionRemove optX.emoji "ua" = none)
    ∧ poll sesThree optX = ⟨⟨"ua"⟩, none, ["bot", "ua"], [("x", "ua")]⟩ :=
  ⟨⟨rfl, by decide, rfl⟩,
    poll_returns_first_nonbot sesThree optX [⟨"bot"⟩] ⟨"ua"⟩ [⟨"ub"⟩] rfl
      (by decide) (by decide) rfl⟩

/-- C5: on a reactor list with no non-bot user (empty included), `poll`
returns the zero user with no error and issues no remove call, and the
tick leaves the watcher polling (state unchanged, no callback fired). -/
theorem poll_no_qualifying_stays_polling (ses : Session) (opt : Opt)
    (users : List User)
    (hlist : ses.messageReactions opt.emoji opt.reactionLimit = .ok users)
    (h : ∀ v ∈ users, v.id = ses.selfID) :
    poll ses opt = ⟨emptyUser, none, users.map User.id, []⟩
    ∧ watcherStep opt (.running false) (.tick ses)
        = (.running false, [.pollCall]) := by
  have hp : poll ses opt = ⟨emptyUser, none, users.map User.id, []⟩ := by
    rw [poll_ok ses opt _ hlist, pollLoop_all_self ses opt.emoji users h]
  refine ⟨hp, ?_⟩
  rw [watcherStep_quiet opt ses (by rw [hp]) (by rw [hp]), hp]
  rfl

/-- Witness for C5 on the bot-only reactor list. -/
theorem poll_no_qualifying_stays_polling_witness :
    (sesBotOnly.messageReactions optX.emoji optX.reactionLimit
        = Except.ok [⟨"bot"⟩]
      ∧ (∀ v ∈ [(⟨"bot"⟩ : User)], v.id = sesBotOnly.selfID))
    ∧ poll sesBotOnly optX = ⟨emptyUser, none, ["bot"], []⟩
    ∧ watcherStep optX (.running false) (.tick sesBotOnly)
        = (.running false, [.pollCall]) :=
  ⟨⟨rfl, by decide⟩,
    poll_no_qualifying_stays_polling sesBotOnly optX [⟨"bot"⟩] rfl (by decide)⟩

/-- C10: when removing the reaction of the first non-bot user fails,
`poll` returns the zero user (no user reported) together with the error,
and the tick fires `OnError` and terminates the watcher — `OnSucess` never
appears in the log of the tick. -/
theorem poll_removefail_no_success (ses : Session) (opt : Opt)
    (pre : List User) (u : User) (rest : List User) (e : String)
    (hlist : ses.messageReactions opt.emoji opt.reactionLimit
      = .ok (pre ++ u :: rest))
    (hpre : ∀ v ∈ pre, v.id = ses.selfID) (hu : u.id ≠ ses.selfID)
    (hrem : ses.messageReactionRemove opt.emoji u.id = some e) :
    poll ses opt
      = ⟨emptyUser, some e, pre.map User.id ++ [u.id], [(opt.emoji, u.id)]⟩
    ∧ watcherStep opt (.running false) (.tick ses)
        = (.terminated,
           [.pollCall, .removeReaction opt.emoji u.id, .onError e]) := by
  have hp : poll ses opt
      = ⟨emptyUser, some e, pre.map User.id ++ [u.id], [(opt.emoji, u.id)]⟩ := by
    rw [poll_ok ses opt _ hlist,
      pollLoop_first_err ses opt.emoji pre u rest e hpre hu hrem]
  refine ⟨hp, ?_⟩
  rw [watcherStep_error opt ses e (by rw [hp]), hp]
  rfl

/-- Witness for C10 on the reactor list [bot, ua] with a failing removal
for ua. -/
theorem poll_removefail_no_success_witness :
    (sesRemoveFail.messageReactions optX.emoji optX.reactionLimit
        = Except.ok ([⟨"bot"⟩] ++ ⟨"ua"⟩ :: [])
      ∧ (⟨"ua"⟩ : User).id ≠ sesRemoveFail.selfID
      ∧ sesRemoveFail.messageReactionRemove optX.emoji "ua" = some "rmfail")
    ∧ poll sesRemoveFail optX
        = ⟨emptyUser, some "rmfail", ["bot", "ua"], [("x", "ua")]⟩
    ∧ watcherStep optX (.running false) (.tick sesRemoveFail)
        = (.terminated,
           [.pollCall, .removeReaction "x" "ua", .onError "rmfail"]) :=
  ⟨⟨rfl, by decide, by decide⟩,
    poll_removefail_no_success sesRemoveFail optX [⟨"bot"⟩] ⟨"ua"⟩ [] "rmfail"
      rfl (by decide) (by decide) (by decide)⟩

/-- C1, counterexample: with the reactor list [bot, ua] answered on two
consecutive ticks, the watcher fires `OnSucess` on tick 1, yet issues a
second poll call on tick 2, fires `OnSucess` a second time, and is still
running — the source has no `return` after `OnSucess`.  This refutes
"OnSuccess is invoked exactly once and the watcher terminates immediately,
issuing no poll calls on tick k+1 or later". -/
theorem watcher_success_counterexample :
    (watcherRun optX (.running false) [.tick sesOne, .tick sesOne]).1
        = .running false
    ∧ countA .pollCall
        (watcherRun optX (.running false) [.tick sesOne, .tick sesOne]).2 = 2
    ∧ countA (.onSuccess ⟨"ua"⟩)
        (watcherRun optX (.running false) [.tick sesOne, .tick sesOne]).2 = 2 :=
  ⟨rfl, rfl, rfl⟩

/-- C1, amended: a tick whose poll yields a qualifying (non-zero) user
fires `OnSucess` once on that tick, but the watcher does not terminate: it
stays in the polling state and issues another poll call on the next tick
(so `OnSucess` can fire again on later ticks). -/
theorem watcher_success_keeps_polling (opt : Opt) (ses : Session) (u : User)
    (h1 : (poll ses opt).error = none) (h2 : (poll ses opt).user = u)
    (h3 : emptyUser ≠ u) (ses2 : Session) :
    watcherStep opt (.running false) (.tick ses)
      = (.running false,
         (.pollCall :: (poll ses opt).removeCalls.map
            fun p => Action.removeReaction p.1 p.2) ++ [.onSuccess u])
    ∧ countA .pollCall
        (watcherRun opt (.running false) [.tick ses, .tick ses2]).2 = 2 := by
  have hstep := watcherStep_success opt ses u h1 h2 h3
  refine ⟨hstep, ?_⟩
  have e1 := step_tick_pollCall_one opt ses
  have e2 := step_tick_pollCall_one opt ses2
  rw [watcherRun_cons, countA_append, e1, hstep]
  simp [watcherRun, countA_append, e2]

/-- Witness for C1 (amended) on two ticks answering [bot, ua]. -/
theorem watcher_success_keeps_polling_witness :
    ((poll sesOne optX).error = none ∧ (poll sesOne optX).user = ⟨"ua"⟩
      ∧ emptyUser ≠ (⟨"ua"⟩ : User))
    ∧ watcherStep optX (.running false) (.tick sesOne)
        = (.running false,
           (.pollCall :: (poll sesOne optX).removeCalls.map
              fun p => Action.removeReaction p.1 p.2) ++ [.onSuccess ⟨"ua"⟩])
    ∧ countA .pollCall
        (watcherRun optX (.running false) [.tick sesOne, .tick sesOne]).2 = 2 :=
  ⟨⟨rfl, rfl, by decide⟩,
    watcher_success_keeps_polling optX sesOne ⟨"ua"⟩ rfl rfl (by decide) sesOne⟩

/-- C6: for a watcher still polling (its earlier ticks were quiet), once
the expiration timer fires the expired flag is set (state `running true`),
and the next tick issues the `MessageReactionsRemoveAll` cleanup exactly
once and terminates the watcher; whatever events follow, no further poll
call occurs (the poll-call count stays at one per quiet tick) and the
cleanup is never repeated.  The result of the cleanup call is ignored: the
expired-tick branch of `watcherStep` never reads the
`messageReactionsRemoveAll` field of the tick. -/
theorem watcher_expiration_cleanup (opt : Opt) (pre : List Event)
    (hpre : ∀ e ∈ pre, QuietTick opt e) (ses : Session) (rest : List Event) :
    (watcherRun opt (.running false) (pre ++ [.expire])).1 = .running true
    ∧ (watcherRun opt (.running false)
        (pre ++ .expire :: .tick ses :: rest)).1 = .terminated
    ∧ countA .removeAllCall
        (watcherRun opt (.running false)
          (pre ++ .expire :: .tick ses :: rest)).2 = 1
    ∧ countA .pollCall
        (watcherRun opt (.running false)
          (pre ++ .expire :: .tick ses :: rest)).2 = pre.length := by
  obtain ⟨acts1, heq1, _, _, _, _⟩ := quiet_run opt pre hpre [.expire]
  obtain ⟨acts2, heq2, j1, j2, j3, j4⟩ :=
    quiet_run opt pre hpre (.expire :: .tick ses :: rest)
  have htail : watcherRun opt (.running false) (.expire :: .tick ses :: rest)
      = (.terminated, [.removeAllCall]) := by
    simp [watcherRun_cons, watcherStep, watcherRun_terminated]
  refine ⟨?_, ?_, ?_, ?_⟩
  · rw [heq1]
    rfl
  · rw [heq2, htail]
  · rw [heq2, htail, countA_append, j2]
    rfl
  · rw [heq2, htail, countA_append, j1]
    rfl

/-- Witness for C6: one quiet tick, then expiration, then the cleanup
tick. -/
theorem watcher_expiration_cleanup_witness :
    (∀ e ∈ [Event.tick sesEmpty], QuietTick optX e)
    ∧ ((watcherRun optX (.running false)
          ([Event.tick sesEmpty] ++ [.expire])).1 = .running true
      ∧ (watcherRun optX (.running false)
          ([Event.tick sesEmpty] ++ .expire :: .tick sesEmpty :: [])).1
            = .terminated
      ∧ countA .removeAllCall
          (watcherRun optX (.running false)
            ([Event.tick sesEmpty] ++ .expire :: .tick sesEmpty :: [])).2 = 1
      ∧ countA .pollCall
          (watcherRun optX (.running false)
            ([Event.tick sesEmpty] ++ .expire :: .tick sesEmpty :: [])).2
          = [Event.tick sesEmpty].length) := by
  have hpre : ∀ e ∈ [Event.tick sesEmpty], QuietTick optX e := by
    intro e he
    simp only [List.mem_singleton] at he
    subst he
    exact ⟨sesEmpty, rfl, rfl, rfl⟩
  exact ⟨hpre, watcher_expiration_cleanup optX [Event.tick sesEmpty] hpre
    sesEmpty []⟩

/-- C7: for a watcher still polling (its earlier ticks were quiet), a tick
whose poll fails fires `OnError` exactly once on that tick, terminates
the watcher, and — whatever events follow — no cleanup call is ever
issued and the failing tick issues the last poll call. -/
theorem watcher_pollfail_onerror (opt : Opt) (pre : List Event)
    (hpre : ∀ ev ∈ pre, QuietTick opt ev) (ses : Session) (e : String)
    (herr : (poll ses opt).error = some e) (rest : List Event) :
    (watcherRun opt (.running false) (pre ++ .tick ses :: rest)).1
        = .terminated
    ∧ countA (.onError e)
        (watcherRun opt (.running false) (pre ++ .tick ses :: rest)).2 = 1
    ∧ countA .removeAllCall
        (watcherRun opt (.running false) (pre ++ .tick ses :: rest)).2 = 0
    ∧ countA .pollCall
        (watcherRun opt (.running false) (pre ++ .tick ses :: rest)).2
        = pre.length + 1 := by
  obtain ⟨acts1, heq, h1, h2, h3, h4⟩ := quiet_run opt pre hpre (.tick ses :: rest)
  have hstep := watcherStep_error opt ses e herr
  have htail : watcherRun opt (.running false) (.tick ses :: rest)
      = (.terminated,
         (.pollCall :: (poll ses opt).removeCalls.map
            fun p => Action.removeReaction p.1 p.2) ++ [.onError e]) := by
    rw [watcherRun_cons, hstep]
    simp [watcherRun_terminated]
  have hz : ∀ a : Action, (∀ em uid, Action.removeReaction em uid ≠ a) →
      countA a ((poll ses opt).removeCalls.map
        fun p => Action.removeReaction p.1 p.2) = 0 :=
    fun a ha => countA_remove_map a ha _
  refine ⟨?_, ?_, ?_, ?_⟩
  · rw [heq, htail]
  · rw [heq, htail, countA_append, h3 e, countA_append]
    simp [countA, hz (Action.onError e) fun em uid h => by cases h]
  · rw [heq, htail, countA_append, h2, countA_append]
    simp [countA, hz Action.removeAllCall fun em uid h => by cases h]
  · rw [heq, htail, countA_append, h1, countA_append]
    simp [countA, hz Action.pollCall fun em uid h => by cases h]

/-- Witness for C7: the first tick already fails to fetch the reactor
list. -/
theorem watcher_pollfail_onerror_witness :
    ((∀ ev ∈ ([] : List Event), QuietTick optX ev)
      ∧ (poll sesListFail optX).error = some "listfail")
    ∧ ((watcherRun optX (.running false)
          (([] : List Event) ++ .tick sesListFail :: [])).1 = .terminated
      ∧ countA (.onError "listfail")
          (watcherRun optX (.running false)
            (([] : List Event) ++ .tick sesListFail :: [])).2 = 1
      ∧ countA .removeAllCall
          (watcherRun optX (.running false)
            (([] : List Event) ++ .tick sesListFail :: [])).2 = 0
      ∧ countA .pollCall
          (watcherRun optX (.running false)
            (([] : List Event) ++ .tick sesListFail :: [])).2
          = ([] : List Event).length + 1) :=
  ⟨⟨(fun _ hv => nomatch hv), rfl⟩,
    watcher_pollfail_onerror optX [] (fun _ hv => nomatch hv) sesListFail
      "listfail" rfl []⟩

lemma addLoop_failfast (ses : Session) (msgID : String) (pre : List Opt)
    (o : Opt) (rest : List Opt) (e : String)
    (hpre : ∀ p ∈ pre, ses.messageReactionAdd p.emoji = none)
    (ho : ses.messageReactionAdd o.emoji = some e) :
    addLoop ses msgID (pre ++ o :: rest)
      = (some (.remoteCantAdd msgID),
         (pre.flatMap fun p => [.attach p.emoji, .launch p.emoji])
           ++ [.attach o.emoji]) := by
  induction pre with
  | nil => simp [addLoop, ho]
  | cons q qs ih =>
    have hq : ses.messageReactionAdd q.emoji = none := hpre q (by simp)
    have hr := ih fun w hw => hpre w (by simp [hw])
    simp [addLoop, hq, hr]

/-- C8: `Add` walks the options in caller order, attaching the reaction
and then launching the watcher of each option; when the attach call of
option `o` fails, `Add` returns the remote error at once, and the log
shows the reactions attached and watchers launched for the earlier
options still in place — nothing is rolled back — with only the failed
attach call for `o` and nothing for the later options. -/
theorem add_failfast_keeps_earlier (ses : Session) (msgID : String)
    (pre : List Opt) (o : Opt) (rest : List Opt) (e : String)
    (hpre : ∀ p ∈ pre, ses.messageReactionAdd p.emoji = none)
    (ho : ses.messageReactionAdd o.emoji = some e) :
    Add ses msgID (pre ++ o :: rest)
      = (some (.remoteCantAdd msgID),
         (pre.flatMap fun p => [.attach p.emoji, .launch p.emoji])
           ++ [.attach o.emoji]) := by
  rw [Add, if_neg (by simp)]
  exact addLoop_failfast ses msgID pre o rest e hpre ho

/-- Witness for C8: options x, y, z where attaching y fails — x is
attached and launched, y only attached, z untouched. -/
theorem add_failfast_keeps_earlier_witness :
    ((∀ p ∈ [(⟨"x", 5, 100⟩ : Opt)],
        sesAttachFail.messageReactionAdd p.emoji = none)
      ∧ sesAttachFail.messageReactionAdd "y" = some "boom")
    ∧ Add sesAttachFail "m"
        ([⟨"x", 5, 100⟩] ++ (⟨"y", 5, 100⟩ : Opt) :: [⟨"z", 5, 100⟩])
      = (some (.remoteCantAdd "m"),
         ([(⟨"x", 5, 100⟩ : Opt)].flatMap
            fun p => [.attach p.emoji, .launch p.emoji]) ++ [.attach "y"]) :=
  ⟨⟨by decide, by decide⟩,
    add_failfast_keeps_earlier sesAttachFail "m" [⟨"x", 5, 100⟩] ⟨"y", 5, 100⟩
      [⟨"z", 5, 100⟩] "boom" (by decide) (by decide)⟩

end DisgoReact
